import Mathlib

set_option autoImplicit false
set_option linter.unusedVariables false

/- Shallow embedding of src/addcoord.py (class AddCoord).

   A pd.Series is modelled as a Lean list (the default RangeIndex is the list
   position); a possibly-NaN cell is an Option String.  A Python dict is
   modelled as an association list in insertion order: pyDictInsert reproduces
   dict insertion, where overwriting a key keeps the key's original position
   and updates its value. -/

/-- Python str.strip(): drop whitespace from both ends of the string. -/
def pyStrip (s : String) : String :=
  String.mk (((s.data.dropWhile Char.isWhitespace).reverse.dropWhile Char.isWhitespace).reverse)

/-- Series.str.replace(',', ''): replacing each single-character comma match by
    the empty string deletes every comma. -/
def removeCommas (s : String) : String :=
  String.mk (s.data.filter (fun c => c != ','))

/-- One cell of address.fillna('').str.replace(',', '').str.strip() (line 50). -/
def pyClean (v : Option String) : String :=
  pyStrip (removeCommas (v.getD ("")))

/-- One whole Series cleaned elementwise (line 50). -/
def clean_series (col : List (Option String)) : List String :=
  col.map pyClean

/-- Length of the union RangeIndex produced by pd.concat(cleaned, axis=1). -/
def maxLen (cols : List (List String)) : Nat :=
  (cols.map List.length).foldr Nat.max 0

/-- Row i of pd.concat(cleaned, axis=1): one cell per column, NaN (none) where a
    column is shorter than the union index (line 51). -/
def concat_rows (cols : List (List String)) : List (List (Option String)) :=
  (List.range (maxLen cols)).map (fun i => cols.map (fun c => c.get? i))

inductive ComposeError where
  /-- str.join over a row containing a NaN raises a TypeError. -/
  | joinTypeError
  /-- pd.concat([]) raises a ValueError (no objects to concatenate). -/
  | noObjects
deriving Repr, DecidableEq

/-- Python ' '.join list semantics: separator between consecutive elements. -/
def pyJoin (sep : String) : List String → String
  | [] => ("")
  | [x] => x
  | x :: y :: xs => x ++ sep ++ pyJoin sep (y :: xs)

/-- ' '.join(row) for one row of the concatenated frame: raises when the row
    holds a NaN (which happens exactly when the input Series lengths differ). -/
def join_row (row : List (Option String)) : Except ComposeError String :=
  if row.all Option.isSome then
    Except.ok (pyJoin (" ") (row.map (fun v => v.getD (""))))
  else
    Except.error ComposeError.joinTypeError

/-- DataFrame.apply(lambda row: ' '.join(row), axis=1): rows in order, the
    first failing row aborts the whole computation. -/
def apply_join : List (List (Option String)) → Except ComposeError (List String)
  | [] => Except.ok []
  | r :: rs =>
    match join_row r with
    | Except.error e => Except.error e
    | Except.ok s =>
      match apply_join rs with
      | Except.error e => Except.error e
      | Except.ok ss => Except.ok (s :: ss)

/-- AddCoord.create_main_address, lines 50-62 (the duplicate notice printed on
    lines 55-57 is modelled by duplicate_count_notice below). -/
def create_main_address (fields : List (List (Option String))) : Except ComposeError (List String) :=
  if fields = [] then Except.error ComposeError.noObjects
  else apply_join (concat_rows (fields.map clean_series))

/-- One loop step of AddCoord._find_duplicate_address (lines 28-31); the Python
    set unique_addresses is modelled as a list used only through membership. -/
def dupStep (st : List String × List String) (item : String) : List String × List String :=
  (item :: st.1, if st.1.contains item then st.2 ++ [item] else st.2)

/-- AddCoord._find_duplicate_address, lines 11-33. -/
def _find_duplicate_address (address_list : List String) : List String :=
  (address_list.foldl dupStep ([], [])).2

/-- Lines 55-57: the printed duplicate-count notice (none = nothing printed;
    some n = the notice fired reporting n duplicated addresses). -/
def duplicate_count_notice (full_addresses : List String) : Option Nat :=
  let duplicate_addresses := _find_duplicate_address full_addresses
  if duplicate_addresses.isEmpty then Option.none else some duplicate_addresses.length

/-- The response object geocoder.arcgis(address) hands back; only .ok, .lat and
    .lng are read by this code.  Coordinate values are modelled as optional
    integers; the f-string renders Python None as "None". -/
structure ArcgisResult where
  ok : Bool
  lat : Option Int
  lng : Option Int
deriving Repr, DecidableEq

/-- How the f-string on line 80 renders g.lat and g.lng. -/
def pyFmt : Option Int → String
  | Option.none => ("None")
  | some n => toString n

/-- AddCoord.geocode, lines 78-82, with the remote call abstracted into the
    response g it returns. -/
def geocode (g : ArcgisResult) : Option String :=
  if g.ok then some (pyFmt g.lat ++ (",") ++ pyFmt g.lng) else Option.none

/-- AddCoord._geocode_wrapper, lines 107-111; arc is one round of the remote
    collaborator. -/
def _geocode_wrapper (arc : String → ArcgisResult) (address : String) (index : String × Nat) :
    Option String × (String × Nat) :=
  let lat_lon := geocode (arc address)
  if lat_lon.isSome then (lat_lon, index) else (Option.none, index)

/-- Python dict insertion: overwriting an existing key keeps the key's original
    position and updates its value; a new key is appended. -/
def pyDictInsert (d : List (String × Nat)) (k : String) (v : Nat) : List (String × Nat) :=
  if d.any (fun p => p.1 = k) then
    d.map (fun p => if p.1 = k then (k, v) else p)
  else d ++ [(k, v)]

/-- The dict comprehension {k: v for k, v in l} (lines 148-149). -/
def pyDictOfList (l : List (String × Nat)) : List (String × Nat) :=
  l.foldl (fun d p => pyDictInsert d p.1 p.2) []

/-- Line 174: {k: v for v, k in enumerate(addresses)} — keyed by ADDRESS, so a
    duplicated address overwrites its earlier index. -/
def index_dict_of (addresses : List String) : List (String × Nat) :=
  addresses.enum.foldl (fun d p => pyDictInsert d p.2 p.1) []

/-- AddCoord.concurrent_geocode, lines 141-151.  executor.map zips its argument
    iterables, truncating at the shorter one, and yields results in input
    order; num_threads only sizes the worker pool (and the printed notice). -/
def concurrent_geocode (arc : String → ArcgisResult) (addresses : List String)
    (index_dict : List (String × Nat)) (num_threads : Option Nat) :
    List (Option String) × List (String × Nat) × List (String × Nat) :=
  let indexed_results := (addresses.zip index_dict).map (fun p => _geocode_wrapper arc p.1 p.2)
  let lat_lon_list := indexed_results.map (fun r => r.1)
  let failed_indexes_list := (indexed_results.filter (fun r => r.1.isNone)).map (fun r => r.2)
  let successful_index_list := (indexed_results.filter (fun r => !r.1.isNone)).map (fun r => r.2)
  (lat_lon_list, pyDictOfList failed_indexes_list, pyDictOfList successful_index_list)

/-- One iteration of the retry loop of fetch_coordinates, lines 180-194.
    List.set models lat_lon_list[index] = coord (every index written by the
    source at an in-range input is in range of the list). -/
def retry_round (arc : String → ArcgisResult) (addresses : List String)
    (lat_lon_list : List (Option String)) (index_dict : List (String × Nat))
    (num_threads : Option Nat) :
    List (Option String) × List (String × Nat) :=
  let index_list := index_dict.map (fun p => p.2)
  let res := concurrent_geocode arc (index_list.map (fun i => addresses.getD i (""))) index_dict num_threads
  let lat_lon_retries := res.1
  let failed_indexes := res.2.1
  let successful_indexes := res.2.2
  let update_list := lat_lon_retries.zip (successful_indexes.map (fun p => p.2))
  let updated := update_list.foldl (fun l cu => l.set cu.2 cu.1) lat_lon_list
  (updated, failed_indexes)

/-- The while loop on lines 178-194: while failed_indexes and retries < 10;
    run with fuel = 10 - retries, so the loop condition retries < 10 is
    exactly fuel > 0.  Also returns the number of retry rounds that ran. -/
def retry_go (arc : Nat → String → ArcgisResult) (addresses : List String)
    (num_threads : Option Nat) :
    Nat → List (Option String) → List (String × Nat) → Nat → List (Option String) × Nat
  | 0, lat_lon_list, _, retries => (lat_lon_list, retries)
  | fuel + 1, lat_lon_list, failed_indexes, retries =>
    if failed_indexes = [] then (lat_lon_list, retries)
    else
      let r := retry_round (arc (retries + 1)) addresses lat_lon_list failed_indexes num_threads
      retry_go arc addresses num_threads fuel r.1 r.2 (retries + 1)

/-- AddCoord.fetch_coordinates, lines 153-202, also reporting how many retry
    rounds ran.  The collaborator may answer differently each round: its round
    r behaviour is arc r (round 0 is the initial dispatch). -/
def fetch_rounds (arc : Nat → String → ArcgisResult) (addresses : List String)
    (num_threads : Option Nat) : List (Option String) × Nat :=
  let index_dict := index_dict_of addresses
  let res := concurrent_geocode (arc 0) addresses index_dict num_threads
  retry_go arc addresses num_threads 10 res.1 res.2.1 0

/-- The Series returned by AddCoord.fetch_coordinates. -/
def fetch_coordinates (arc : Nat → String → ArcgisResult) (addresses : List String)
    (num_threads : Option Nat) : List (Option String) :=
  (fetch_rounds arc addresses num_threads).1

/-- Collaborator that always succeeds, with coordinates (1, 2). -/
def arcAlwaysOk : Nat → String → ArcgisResult := fun _ _ => ⟨true, some 1, some 2⟩

/-- Collaborator that always fails. -/
def arcAlwaysFail : Nat → String → ArcgisResult := fun _ _ => ⟨false, Option.none, Option.none⟩

/-- One always-failing round of the collaborator. -/
def arcFailRound : String → ArcgisResult := fun _ => ⟨false, Option.none, Option.none⟩

/-- Round 0: every address fails; every later round: address "A" keeps
    failing while "B" and "C" succeed (with distinct coordinates). -/
def arcRetryMix : Nat → String → ArcgisResult := fun r a =>
  if r = 0 then ⟨false, Option.none, Option.none⟩
  else if a = ("A") then ⟨false, Option.none, Option.none⟩
  else if a = ("B") then ⟨true, some 10, some 0⟩
  else ⟨true, some 20, some 0⟩

/-- Collaborator that reports success (ok) with an empty, falsy coordinate
    pair (lat and lng both None). -/
def arcOkEmpty : Nat → String → ArcgisResult := fun _ _ => ⟨true, Option.none, Option.none⟩

/-! ### Helper lemmas about the composer -/

theorem mem_pyStrip {c : Char} {s : String} (h : c ∈ (pyStrip s).data) : c ∈ s.data := by
  simp only [pyStrip, String.data] at h
  rw [List.mem_reverse] at h
  have h1 := (List.dropWhile_sublist (l := (s.data.dropWhile Char.isWhitespace).reverse)
    (p := Char.isWhitespace)).mem h
  rw [List.mem_reverse] at h1
  exact (List.dropWhile_sublist (l := s.data) (p := Char.isWhitespace)).mem h1

theorem comma_not_mem_removeCommas (s : String) : ¬ (',' ∈ (removeCommas s).data) := by
  intro h
  simp only [removeCommas, String.data, List.mem_filter] at h
  simp at h

theorem comma_not_mem_pyClean (v : Option String) : ¬ (',' ∈ (pyClean v).data) := by
  intro h
  exact comma_not_mem_removeCommas _ (mem_pyStrip h)

theorem mem_pyJoin_data {c : Char} (sep : String) :
    ∀ l : List String, c ∈ (pyJoin sep l).data → c ∈ sep.data ∨ ∃ s ∈ l, c ∈ s.data
  | [], h => by simp [pyJoin, String.data] at h
  | [x], h => by
    simp only [pyJoin] at h
    exact Or.inr ⟨x, by simp, h⟩
  | x :: y :: xs, h => by
    simp only [pyJoin, String.data_append, List.mem_append] at h
    rcases h with (h | h) | h
    · exact Or.inr ⟨x, by simp, h⟩
    · exact Or.inl h
    · rcases mem_pyJoin_data sep (y :: xs) h with h1 | ⟨s, hs, hc⟩
      · exact Or.inl h1
      · exact Or.inr ⟨s, by simp at hs ⊢; tauto, hc⟩

theorem le_maxLen {c : List String} : ∀ {cols : List (List String)}, c ∈ cols → c.length ≤ maxLen cols
  | [], h => by simp at h
  | d :: cols, h => by
    simp only [maxLen, List.map_cons, List.foldr_cons] at *
    rcases List.mem_cons.mp h with rfl | h
    · exact Nat.le_max_left _ _
    · exact le_trans (le_maxLen h) (Nat.le_max_right _ _)

theorem maxLen_const {n : Nat} :
    ∀ (cols : List (List String)), cols ≠ [] → (∀ c ∈ cols, c.length = n) → maxLen cols = n
  | [], h, _ => absurd rfl h
  | [c], _, hl => by
    simp only [maxLen, List.map_cons, List.map_nil, List.foldr_cons, List.foldr_nil]
    simp [hl c (by simp)]
  | c :: d :: cols, _, hl => by
    have ih := maxLen_const (d :: cols) (by simp) (fun x hx => hl x (by simp at hx ⊢; tauto))
    simp only [maxLen, List.map_cons, List.foldr_cons] at ih ⊢
    rw [ih, hl c (by simp)]
    simp

theorem apply_join_ok :
    ∀ (rows : List (List (Option String))), (∀ r ∈ rows, r.all Option.isSome = true) →
      apply_join rows = Except.ok (rows.map (fun r => pyJoin (" ") (r.map (fun v => v.getD ("")))))
  | [], _ => rfl
  | r :: rs, h => by
    have hr : r.all Option.isSome = true := h r (by simp)
    have ih := apply_join_ok rs (fun x hx => h x (by simp [hx]))
    simp [apply_join, join_row, hr, ih]

theorem apply_join_error :
    ∀ {rows : List (List (Option String))} {r : List (Option String)}, r ∈ rows →
      r.all Option.isSome = false → ∃ e, apply_join rows = Except.error e
  | [], r, hr, _ => by simp at hr
  | x :: rows, r, hr, hall => by
    rcases List.mem_cons.mp hr with rfl | hr
    · exact ⟨ComposeError.joinTypeError, by simp [apply_join, join_row, hall]⟩
    · rcases apply_join_error hr hall with ⟨e, he⟩
      simp only [apply_join, join_row]
      by_cases hx : x.all Option.isSome
      · simp [hx, he]
      · exact ⟨ComposeError.joinTypeError, by simp [hx]⟩

/-! ### Helper lemmas about the duplicate scan -/

theorem not_contains_iff (s : List String) (a : String) :
    ((!(s.contains a)) = true) ↔ a ∉ s := by
  simp [List.contains, List.elem_eq_mem]

theorem dupFold_length :
    ∀ (l : List String) (s d : List String),
      ((l.foldl dupStep (s, d)).2).length
        + ((l.filter (fun y => !(s.contains y))).toFinset).card = d.length + l.length
  | [], s, d => by simp
  | x :: xs, s, d => by
    rw [List.foldl_cons]
    by_cases hx : x ∈ s
    · have hstep : dupStep (s, d) x = (x :: s, d ++ [x]) := by simp [dupStep, hx]
      have hsame : (xs.filter (fun y => !((x :: s).contains y))).toFinset
          = (xs.filter (fun y => !(s.contains y))).toFinset := by
        ext a
        simp only [List.mem_toFinset, List.mem_filter, not_contains_iff, List.mem_cons]
        constructor
        · rintro ⟨ha, hno⟩
          exact ⟨ha, fun hc => hno (Or.inr hc)⟩
        · rintro ⟨ha, hno⟩
          refine ⟨ha, ?_⟩
          rintro (rfl | hc)
          · exact hno hx
          · exact hno hc
      have ih := dupFold_length xs (x :: s) (d ++ [x])
      rw [hsame] at ih
      have hhead : (x :: xs).filter (fun y => !(s.contains y))
          = xs.filter (fun y => !(s.contains y)) := by simp [List.filter_cons, hx]
      rw [hstep, hhead]
      simp only [List.length_append, List.length_cons, List.length_nil] at ih ⊢
      omega
    · have hstep : dupStep (s, d) x = (x :: s, d) := by simp [dupStep, hx]
      have hhead : (x :: xs).filter (fun y => !(s.contains y))
          = x :: xs.filter (fun y => !(s.contains y)) := by simp [List.filter_cons, hx]
      have herase : (xs.filter (fun y => !((x :: s).contains y))).toFinset
          = (xs.filter (fun y => !(s.contains y))).toFinset.erase x := by
        ext a
        simp only [List.mem_toFinset, List.mem_filter, not_contains_iff, List.mem_cons,
          Finset.mem_erase, ne_eq]
        constructor
        · rintro ⟨ha, hno⟩
          exact ⟨fun hc => hno (Or.inl hc), ha, fun hc => hno (Or.inr hc)⟩
        · rintro ⟨hne, ha, hno⟩
          refine ⟨ha, ?_⟩
          rintro (hc | hc)
          · exact hne hc
          · exact hno hc
      have ih := dupFold_length xs (x :: s) d
      rw [herase] at ih
      rw [hstep, hhead]
      set A := (xs.filter (fun y => !(s.contains y))).toFinset with hA
      simp only [List.toFinset_cons]
      by_cases hxA : x ∈ A
      · rw [Finset.insert_eq_self.mpr hxA]
        have hcard := Finset.card_erase_add_one hxA
        simp only [List.length_cons] at ih ⊢
        omega
      · rw [Finset.card_insert_of_not_mem hxA]
        rw [Finset.erase_eq_of_not_mem hxA] at ih
        simp only [List.length_cons] at ih ⊢
        omega

theorem find_dup_length (l : List String) :
    (_find_duplicate_address l).length + l.toFinset.card = l.length := by
  have h := dupFold_length l [] []
  simpa [_find_duplicate_address] using h

theorem find_dup_nil_iff (l : List String) : _find_duplicate_address l = [] ↔ l.Nodup := by
  constructor
  · intro h
    have h2 := find_dup_length l
    rw [h] at h2
    simp only [List.length_nil, Nat.zero_add] at h2
    rw [List.card_toFinset] at h2
    have h4 : l.dedup = l := (List.dedup_sublist l).eq_of_length h2
    rw [← h4]
    exact l.nodup_dedup
  · intro h
    have h2 := find_dup_length l
    rw [List.toFinset_card_of_nodup h] at h2
    have h3 : (_find_duplicate_address l).length = 0 := by omega
    exact List.eq_nil_of_length_eq_zero h3

/-! ### Helper lemmas about the dict model -/

theorem mem_pyDictInsert {d : List (String × Nat)} {k : String} {v : Nat} {p : String × Nat}
    (h : p ∈ pyDictInsert d k v) : p ∈ d ∨ p = (k, v) := by
  simp only [pyDictInsert] at h
  split at h
  · rcases List.mem_map.mp h with ⟨q, hq, rfl⟩
    by_cases hqk : q.1 = k
    · right; simp [hqk]
    · left; simpa [hqk] using hq
  · rcases List.mem_append.mp h with h1 | h1
    · exact Or.inl h1
    · right; simpa using h1

theorem mem_foldl_pyDictInsert :
    ∀ (l : List (String × Nat)) (acc : List (String × Nat)) (p : String × Nat),
      p ∈ l.foldl (fun d q => pyDictInsert d q.1 q.2) acc → p ∈ acc ∨ p ∈ l
  | [], acc, p, h => Or.inl h
  | x :: xs, acc, p, h => by
    rw [List.foldl_cons] at h
    rcases mem_foldl_pyDictInsert xs _ p h with h1 | h1
    · rcases mem_pyDictInsert h1 with h2 | h2
      · exact Or.inl h2
      · right
        simp [h2]
    · right
      simp [h1]

theorem mem_pyDictOfList {l : List (String × Nat)} {p : String × Nat}
    (h : p ∈ pyDictOfList l) : p ∈ l := by
  rcases mem_foldl_pyDictInsert l [] p h with h1 | h1
  · simp at h1
  · exact h1

theorem pyDictInsert_keys_nodup {d : List (String × Nat)} {k : String} {v : Nat}
    (h : (d.map Prod.fst).Nodup) : ((pyDictInsert d k v).map Prod.fst).Nodup := by
  simp only [pyDictInsert]
  split
  case isTrue hany =>
    have heq : (d.map (fun p => if p.1 = k then (k, v) else p)).map Prod.fst
        = d.map Prod.fst := by
      rw [List.map_map]
      apply List.map_congr_left
      intro p hp
      by_cases hpk : p.1 = k
      · simp [hpk]
      · simp [hpk]
    rw [heq]
    exact h
  case isFalse hany =>
    rw [List.map_append]
    rw [List.nodup_append]
    refine ⟨h, by simp, ?_⟩
    intro a ha hak
    simp only [List.map_cons, List.map_nil, List.mem_singleton] at hak
    subst hak
    rcases List.mem_map.mp ha with ⟨p, hp, rfl⟩
    rw [List.any_eq_true] at hany
    exact hany ⟨p, hp, by simp⟩

theorem foldl_keys_nodup :
    ∀ (l : List (String × Nat)) (acc : List (String × Nat)),
      (acc.map Prod.fst).Nodup →
      ((l.foldl (fun d q => pyDictInsert d q.1 q.2) acc).map Prod.fst).Nodup
  | [], acc, h => h
  | x :: xs, acc, h => by
    rw [List.foldl_cons]
    exact foldl_keys_nodup xs _ (pyDictInsert_keys_nodup h)

theorem pyDictOfList_keys_nodup (l : List (String × Nat)) :
    ((pyDictOfList l).map Prod.fst).Nodup :=
  foldl_keys_nodup l [] (by simp)

theorem foldl_pyDictInsert_eq_append :
    ∀ (l acc : List (String × Nat)), ((acc ++ l).map Prod.fst).Nodup →
      l.foldl (fun d q => pyDictInsert d q.1 q.2) acc = acc ++ l
  | [], acc, h => by simp
  | (k, v) :: xs, acc, h => by
    have hk : ¬ acc.any (fun p => p.1 = k) := by
      intro hc
      rw [List.any_eq_true] at hc
      rcases hc with ⟨p, hp, hpk⟩
      have hmem : k ∈ acc.map Prod.fst :=
        List.mem_map.mpr ⟨p, hp, by simpa using hpk⟩
      rw [List.map_append] at h
      rcases List.nodup_append.mp h with ⟨_, _, hdis⟩
      exact hdis hmem (by simp)
    have hins : pyDictInsert acc k v = acc ++ [(k, v)] := by
      simp only [pyDictInsert]
      rw [if_neg hk]
    simp only [List.foldl_cons]
    have hrec := foldl_pyDictInsert_eq_append xs (acc ++ [(k, v)])
      (by simpa [List.append_assoc] using h)
    rw [hins]
    rw [hrec]
    simp

theorem pyDictOfList_eq_self {l : List (String × Nat)} (h : (l.map Prod.fst).Nodup) :
    pyDictOfList l = l := by
  have h2 := foldl_pyDictInsert_eq_append l [] (by simpa using h)
  simpa [pyDictOfList] using h2

theorem pyDictInsert_ne_nil (d : List (String × Nat)) (k : String) (v : Nat) :
    pyDictInsert d k v ≠ [] := by
  simp only [pyDictInsert]
  split
  case isTrue h =>
    intro hc
    rw [List.map_eq_nil_iff] at hc
    subst hc
    simp at h
  case isFalse h => simp

theorem foldl_pyDictInsert_ne_nil {α : Type} (key : α → String) (val : α → Nat) :
    ∀ (l : List α) (acc : List (String × Nat)), acc ≠ [] →
      l.foldl (fun d x => pyDictInsert d (key x) (val x)) acc ≠ []
  | [], acc, h => h
  | x :: xs, acc, h => by
    rw [List.foldl_cons]
    exact foldl_pyDictInsert_ne_nil key val xs _ (pyDictInsert_ne_nil _ _ _)

theorem pyDictOfList_ne_nil {l : List (String × Nat)} (h : l ≠ []) : pyDictOfList l ≠ [] := by
  rcases l with _ | ⟨x, xs⟩
  · exact absurd rfl h
  · simp only [pyDictOfList, List.foldl_cons]
    exact foldl_pyDictInsert_ne_nil Prod.fst Prod.snd xs _ (pyDictInsert_ne_nil _ _ _)

theorem index_dict_of_ne_nil {addresses : List String} (h : addresses ≠ []) :
    index_dict_of addresses ≠ [] := by
  rcases addresses with _ | ⟨a, as⟩
  · exact absurd rfl h
  · simp only [index_dict_of, List.enum_cons, List.foldl_cons]
    exact foldl_pyDictInsert_ne_nil Prod.snd Prod.fst _ _ (pyDictInsert_ne_nil _ _ _)

/-! ### Evaluation of the composer on aligned inputs -/

theorem clean_series_length (col : List (Option String)) :
    (clean_series col).length = col.length := by
  simp [clean_series]

theorem row_all_isSome {cols : List (List String)} {n i : Nat}
    (hlen : ∀ c ∈ cols, c.length = n) (hi : i < n) :
    (cols.map (fun c => c.get? i)).all Option.isSome = true := by
  rw [List.all_eq_true]
  intro x hx
  rcases List.mem_map.mp hx with ⟨c, hc, rfl⟩
  cases hg : c.get? i
  · rw [List.get?_eq_none] at hg
    rw [hlen c hc] at hg
    omega
  · simp

theorem clean_cell (c : List (Option String)) (i : Nat) :
    (((clean_series c).get? i).getD ("")) = pyClean (c.getD i Option.none) := by
  have hmap : (clean_series c).get? i = (c.get? i).map pyClean := by
    simp [clean_series, List.get?_map]
  rw [hmap, List.getD_eq_getD_get?]
  cases hg : c.get? i
  · simp [hg]
    rfl
  · simp [hg]

theorem comma_not_mem_pyJoin {l : List String} (h : ∀ s ∈ l, ¬ (',' ∈ s.data)) :
    ¬ (',' ∈ (pyJoin (" ") l).data) := by
  intro hc
  rcases mem_pyJoin_data (" ") l hc with h1 | ⟨s, hs, hcs⟩
  · exact absurd h1 (by decide)
  · exact h s hs hcs

theorem create_main_address_eval {fields : List (List (Option String))} {n : Nat}
    (hne : fields ≠ []) (hlen : ∀ c ∈ fields, c.length = n) :
    create_main_address fields = Except.ok ((List.range n).map
      (fun i => pyJoin (" ") (fields.map (fun c => pyClean (c.getD i Option.none))))) := by
  have hcl : ∀ c ∈ fields.map clean_series, c.length = n := by
    intro c hc
    rcases List.mem_map.mp hc with ⟨c0, hc0, rfl⟩
    rw [clean_series_length]
    exact hlen c0 hc0
  have hcne : fields.map clean_series ≠ [] := by
    intro hc
    exact hne (List.map_eq_nil_iff.mp hc)
  rw [create_main_address, if_neg hne]
  have hconcat : concat_rows (fields.map clean_series)
      = (List.range n).map (fun i => (fields.map clean_series).map (fun c => c.get? i)) := by
    rw [concat_rows, maxLen_const (fields.map clean_series) hcne hcl]
  rw [hconcat]
  rw [apply_join_ok _ (by
    intro r hr
    rcases List.mem_map.mp hr with ⟨i, hi, rfl⟩
    exact row_all_isSome hcl (List.mem_range.mp hi))]
  rw [List.map_map]
  congr 1
  apply List.map_congr_left
  intro i hi
  simp only [Function.comp_apply, List.map_map]
  congr 1
  apply List.map_congr_left
  intro c hc
  simp only [Function.comp_apply]
  exact clean_cell c i

theorem create_error_of_lt {fields : List (List (Option String))}
    {c1 c2 : List (Option String)} (h1 : c1 ∈ fields) (h2 : c2 ∈ fields)
    (hlt : c1.length < c2.length) :
    ∃ e, create_main_address fields = Except.error e := by
  have hne : fields ≠ [] := List.ne_nil_of_mem h1
  rw [create_main_address, if_neg hne]
  have hc1 : clean_series c1 ∈ fields.map clean_series := List.mem_map_of_mem _ h1
  have hc2 : clean_series c2 ∈ fields.map clean_series := List.mem_map_of_mem _ h2
  have hmax : c2.length ≤ maxLen (fields.map clean_series) := by
    have h := le_maxLen hc2
    rw [clean_series_length] at h
    exact h
  have hi : c1.length < maxLen (fields.map clean_series) := lt_of_lt_of_le hlt hmax
  have hrow : (fields.map clean_series).map (fun c => c.get? c1.length)
      ∈ concat_rows (fields.map clean_series) := by
    rw [concat_rows]
    exact List.mem_map_of_mem _ (List.mem_range.mpr hi)
  have hbad : ((fields.map clean_series).map (fun c => c.get? c1.length)).all
      Option.isSome = false := by
    rw [List.all_eq_false]
    refine ⟨(clean_series c1).get? c1.length, List.mem_map_of_mem _ hc1, ?_⟩
    have hnone : (clean_series c1).get? c1.length = Option.none := by
      rw [List.get?_eq_none, clean_series_length]
    rw [hnone]
    simp
  exact apply_join_error hrow hbad

/-! ### Helper lemmas about the resolution engine -/

theorem geocode_eq_none {g : ArcgisResult} (h : g.ok = false) : geocode g = Option.none := by
  simp [geocode, h]

theorem _geocode_wrapper_of_fail {arc : String → ArcgisResult} {a : String} (p : String × Nat)
    (h : (arc a).ok = false) : _geocode_wrapper arc a p = (Option.none, p) := by
  simp [_geocode_wrapper, geocode_eq_none h]

theorem _geocode_wrapper_snd (arc : String → ArcgisResult) (a : String) (p : String × Nat) :
    (_geocode_wrapper arc a p).2 = p := by
  cases hg : geocode (arc a) <;> simp [_geocode_wrapper, hg]

theorem concurrent_geocode_all_fail {arc : String → ArcgisResult}
    (hfail : ∀ a, (arc a).ok = false) (addrs : List String) (d : List (String × Nat))
    (nt : Option Nat) :
    concurrent_geocode arc addrs d nt
      = ((addrs.zip d).map (fun _ => Option.none),
         pyDictOfList ((addrs.zip d).map Prod.snd), []) := by
  simp only [concurrent_geocode]
  have hmap : (addrs.zip d).map (fun p => _geocode_wrapper arc p.1 p.2)
      = (addrs.zip d).map (fun p => ((Option.none : Option String), p.2)) :=
    List.map_congr_left (fun p hp => _geocode_wrapper_of_fail p.2 (hfail p.1))
  rw [hmap]
  simp [List.map_map, List.filter_map, Function.comp_def, pyDictOfList]

theorem retry_round_all_fail {arc : String → ArcgisResult} (hfail : ∀ a, (arc a).ok = false)
    (addrs : List String) (l : List (Option String)) (d : List (String × Nat)) (nt : Option Nat)
    (hnodup : (d.map Prod.fst).Nodup) :
    retry_round arc addrs l d nt = (l, d) := by
  simp only [retry_round]
  rw [concurrent_geocode_all_fail hfail]
  have hsnd : (((d.map (fun p => p.2)).map (fun i => addrs.getD i (""))).zip d).map Prod.snd
      = d := List.map_snd_zip _ _ (by simp)
  simp only [hsnd, List.map_nil, List.zip_nil_right, List.foldl_nil]
  rw [pyDictOfList_eq_self hnodup]

theorem retry_go_all_fail {arc : Nat → String → ArcgisResult}
    (hfail : ∀ r a, (arc r a).ok = false) (addrs : List String) (nt : Option Nat)
    {d : List (String × Nat)} (hnodup : (d.map Prod.fst).Nodup) (hne : d ≠ []) :
    ∀ (fuel : Nat) (l : List (Option String)) (retries : Nat),
      retry_go arc addrs nt fuel l d retries = (l, retries + fuel)
  | 0, l, retries => by simp [retry_go]
  | fuel + 1, l, retries => by
    rw [retry_go]
    rw [if_neg hne]
    rw [retry_round_all_fail (hfail (retries + 1)) addrs l d nt hnodup]
    rw [retry_go_all_fail hfail addrs nt hnodup hne fuel l (retries + 1)]
    ring_nf

/-! ### Claim theorems -/

/-- C1: refuted as stated.  The spec claims fetch_coordinates always returns a
    sequence of the same length as its input, but index_dict is keyed by the
    address string, so a duplicated input address collapses the dict and
    executor.map truncates at the shorter iterable: for the two-element input
    consisting of the same address twice, with an always-succeeding
    collaborator, the output has length one, not two. -/
theorem fetch_coordinates_dup_input_shrinks :
    (fetch_coordinates arcAlwaysOk ["a", "a"] Option.none).length
      ≠ (["a", "a"] : List String).length := by
  decide

/-- C2: refuted as stated.  In a retry round the code zips the FULL per-call
    retry result list (failures included) with the successful indices only, so
    successes are written to the wrong original index.  With addresses A, B, C
    all failing in round 0 and, in round 1, A failing while B and C succeed,
    the final output holds B's coordinate at C's index 2, drops C's coordinate
    entirely, and leaves B's own index 1 unresolved. -/
theorem fetch_coordinates_retry_mispair :
    fetch_coordinates arcRetryMix ["A", "B", "C"] Option.none
      = [Option.none, Option.none, some ("10,0")] := by
  rfl

/-- C3: create_main_address called with input sequences of unequal lengths
    fails with an error (the TypeError raised when the join hits the NaN cells
    that pd.concat pads shorter columns with — the role the spec names
    InvalidInputError) and produces no partial result. -/
theorem create_main_address_unequal_lengths_error
    (fields : List (List (Option String))) (c1 c2 : List (Option String))
    (h1 : c1 ∈ fields) (h2 : c2 ∈ fields) (hne : c1.length ≠ c2.length) :
    ∃ e, create_main_address fields = Except.error e := by
  rcases Nat.lt_or_ge c1.length c2.length with hlt | hge
  · exact create_error_of_lt h1 h2 hlt
  · have hlt : c2.length < c1.length := lt_of_le_of_ne hge (fun h => hne h.symm)
    exact create_error_of_lt h2 h1 hlt

/-- Witness for C3 at a concrete input: one column of length one, one empty. -/
theorem create_main_address_unequal_lengths_error_witness :
    ∃ e, create_main_address [[some ("a")], []] = Except.error e :=
  create_main_address_unequal_lengths_error [[some ("a")], []] [some ("a")] []
    (by decide) (by decide) (by decide)

/-- C4: if the collaborator fails on every call, fetch_coordinates terminates
    after the initial round plus exactly 10 retry rounds and every entry of
    the returned sequence is None. -/
theorem fetch_coordinates_all_fail_all_none (arc : Nat → String → ArcgisResult)
    (addresses : List String) (nt : Option Nat)
    (hfail : ∀ r a, (arc r a).ok = false) (hne : addresses ≠ []) :
    (fetch_rounds arc addresses nt).2 = 10
      ∧ ∀ x ∈ fetch_coordinates arc addresses nt, x = Option.none := by
  have hd : index_dict_of addresses ≠ [] := index_dict_of_ne_nil hne
  have hzne : addresses.zip (index_dict_of addresses) ≠ [] := by
    intro hc
    rcases List.zip_eq_nil_iff.mp hc with hc | hc
    · exact hne hc
    · exact hd hc
  have hf0ne : pyDictOfList ((addresses.zip (index_dict_of addresses)).map Prod.snd) ≠ [] := by
    apply pyDictOfList_ne_nil
    intro hc
    exact hzne (List.map_eq_nil_iff.mp hc)
  have hf0nodup := pyDictOfList_keys_nodup ((addresses.zip (index_dict_of addresses)).map Prod.snd)
  have hmain : fetch_rounds arc addresses nt
      = ((addresses.zip (index_dict_of addresses)).map (fun _ => Option.none), 10) := by
    simp only [fetch_rounds, concurrent_geocode_all_fail (hfail 0)]
    rw [retry_go_all_fail hfail addresses nt hf0nodup hf0ne 10 _ 0]
  constructor
  · rw [hmain]
  · intro x hx
    rw [fetch_coordinates, hmain] at hx
    rcases List.mem_map.mp hx with ⟨q, hq, rfl⟩
    rfl

/-- Witness for C4 at a concrete input: a single address with the
    always-failing collaborator runs all 10 retry rounds and yields None. -/
theorem fetch_coordinates_all_fail_all_none_witness :
    (fetch_rounds arcAlwaysFail ["x"] Option.none).2 = 10
      ∧ ∀ x ∈ fetch_coordinates arcAlwaysFail ["x"] Option.none, x = Option.none :=
  fetch_coordinates_all_fail_all_none arcAlwaysFail ["x"] Option.none
    (fun _ _ => rfl) (by decide)

/-- C5: refuted as stated.  A collaborator response that reports success (ok)
    with an empty/falsy coordinate pair is NOT treated as a failure: geocode
    formats it into the string "None,None", which is recorded as a resolved
    result, and the index is not retried (zero retry rounds run). -/
theorem geocode_ok_empty_recorded_resolved :
    fetch_rounds arcOkEmpty ["X"] Option.none = ([some ("None,None")], 0) := by
  rfl

/-- C5 amended: the resolution layer records an address as unresolved (None)
    and eligible for retry exactly when the collaborator reports non-success
    (ok = false); a success report is always recorded as resolved, whatever
    the coordinate values, and the index pair is passed through unchanged. -/
theorem wrapper_failure_iff_not_ok (arc : String → ArcgisResult) (a : String)
    (p : String × Nat) :
    ((_geocode_wrapper arc a p).1 = Option.none ↔ (arc a).ok = false)
      ∧ (_geocode_wrapper arc a p).2 = p := by
  constructor
  · cases hok : (arc a).ok
    · simp [_geocode_wrapper, geocode, hok]
    · simp [_geocode_wrapper, geocode, hok]
  · exact _geocode_wrapper_snd arc a p

/-- C6: refuted as stated.  With an always-succeeding collaborator the claim
    promises a fully-populated output with one entry per input position, but
    for the duplicated two-element input the code returns a single-element
    sequence: there is no entry at position 1 at all. -/
theorem fetch_coordinates_all_success_dup_bug :
    fetch_coordinates arcAlwaysOk ["a", "a"] Option.none = [some ("1,2")] := by
  rfl

/-- C7: across retry rounds the failed-index working set only shrinks: every
    (address, index) entry of the failed map produced by a retry round is an
    entry of the failed map the round started from, so indices are never
    reused or renumbered and the pending set never grows. -/
theorem retry_failed_set_subset (arc : String → ArcgisResult) (addresses : List String)
    (l : List (Option String)) (d : List (String × Nat)) (nt : Option Nat)
    (p : String × Nat) (hp : p ∈ (retry_round arc addresses l d nt).2) : p ∈ d := by
  simp only [retry_round, concurrent_geocode] at hp
  have h1 := mem_pyDictOfList hp
  rcases List.mem_map.mp h1 with ⟨r, hr, rfl⟩
  have h2 := (List.mem_filter.mp hr).1
  rcases List.mem_map.mp h2 with ⟨q, hq, rfl⟩
  rw [_geocode_wrapper_snd]
  obtain ⟨qa, qp⟩ := q
  exact (List.of_mem_zip hq).2

/-- Witness for C7 at a concrete input: one failing pending entry survives a
    retry round and is exactly the entry the round started from. -/
theorem retry_failed_set_subset_witness :
    (("A", 0) : String × Nat) ∈ (retry_round arcFailRound ["A"] [Option.none]
        [("A", 0)] Option.none).2
      ∧ (("A", 0) : String × Nat) ∈ ([("A", 0)] : List (String × Nat)) :=
  ⟨by decide,
   retry_failed_set_subset arcFailRound ["A"] [Option.none] [("A", 0)] Option.none
     ("A", 0) (by decide)⟩

/-- C8: for nonempty families of equal-length field sequences,
    create_main_address succeeds; the output has the input length, the entry
    at each position is the position's field values cleaned (missing value to
    empty string, commas removed, ends trimmed) and joined with single
    spaces, and no output string contains a comma. -/
theorem create_main_address_spec (fields : List (List (Option String))) (n : Nat)
    (hne : fields ≠ []) (hlen : ∀ c ∈ fields, c.length = n) :
    ∃ out, create_main_address fields = Except.ok out ∧ out.length = n ∧
      (∀ i, i < n → out.get? i
          = some (pyJoin (" ") (fields.map (fun c => pyClean (c.getD i Option.none)))))
      ∧ (∀ s ∈ out, ¬ (',' ∈ s.data)) := by
  refine ⟨_, create_main_address_eval hne hlen, ?_, ?_, ?_⟩
  · simp
  · intro i hi
    rw [List.get?_map, List.get?_range hi]
    rfl
  · intro s hs
    rcases List.mem_map.mp hs with ⟨i, hi, rfl⟩
    apply comma_not_mem_pyJoin
    intro t ht
    rcases List.mem_map.mp ht with ⟨c, hc, rfl⟩
    exact comma_not_mem_pyClean _

/-- Witness for C8 at a concrete input: two aligned one-row columns whose
    values carry commas and padding whitespace. -/
theorem create_main_address_spec_witness :
    ∃ out, create_main_address [[some ("a,b ")], [some (" c")]] = Except.ok out
      ∧ out.length = 1 ∧
      (∀ i, i < 1 → out.get? i
          = some (pyJoin (" ") (([[some ("a,b ")], [some (" c")]] :
              List (List (Option String))).map (fun c => pyClean (c.getD i Option.none)))))
      ∧ (∀ s ∈ out, ¬ (',' ∈ s.data)) :=
  create_main_address_spec [[some ("a,b ")], [some (" c")]] 1 (by decide) (by decide)

/-- C9: on any output of create_main_address, the duplicate-count notice fires
    exactly when some composed string repeats, and then its count equals the
    number of exact-match repeats (occurrences beyond the first of each
    distinct string, i.e. length minus the number of distinct strings) and is
    at least 1; with no repeats the notice does not fire. -/
theorem duplicate_notice_spec (fields : List (List (Option String)))
    (out : List String) (hok : create_main_address fields = Except.ok out) :
    (¬ out.Nodup → duplicate_count_notice out = some (out.length - out.dedup.length)
        ∧ 1 ≤ out.length - out.dedup.length)
      ∧ (out.Nodup → duplicate_count_notice out = Option.none) := by
  constructor
  · intro hnd
    have hlen := find_dup_length out
    rw [List.card_toFinset] at hlen
    have hnil : _find_duplicate_address out ≠ [] :=
      fun hc => hnd ((find_dup_nil_iff out).mp hc)
    have hpos : 0 < (_find_duplicate_address out).length := List.length_pos.mpr hnil
    constructor
    · simp only [duplicate_count_notice]
      rw [if_neg (fun hc => hnil (List.isEmpty_iff.mp hc))]
      congr 1
      omega
    · omega
  · intro hnd
    have hnil : _find_duplicate_address out = [] := (find_dup_nil_iff out).mpr hnd
    simp [duplicate_count_notice, hnil]

/-- Witness for C9 at a concrete input: a single column producing the composed
    list with one exact repeat fires the notice with count 1; sanity-check
    that a repeat-free output does not fire it. -/
theorem duplicate_notice_spec_witness :
    duplicate_count_notice ["x", "x"]
        = some ((["x", "x"] : List String).length - (["x", "x"] : List String).dedup.length)
      ∧ 1 ≤ (["x", "x"] : List String).length - (["x", "x"] : List String).dedup.length :=
  (duplicate_notice_spec [[some ("x"), some ("x")]] ["x", "x"] (by rfl)).1 (by decide)

/-- C10: the concurrency-degree parameter does not influence which addresses
    succeed or fail nor any returned coordinate: running fetch_coordinates
    with num_threads = 1 returns exactly the same sequence as running it with
    num_threads unset (None); the parameter only sizes the worker pool, and
    executor.map hands results back in input order either way. -/
theorem fetch_coordinates_threads_irrelevant (arc : Nat → String → ArcgisResult)
    (addresses : List String) :
    fetch_coordinates arc addresses (some 1)
      = fetch_coordinates arc addresses Option.none := by
  rfl
